import Mathlib

/-!
Shallow embedding of `setupdemo.py` (class `DemoCreator`): the idempotent
reconciliation engine of the vantage6 demo bootstrapper.  Pure data is
modelled directly; filesystem facts (existence of a path, the listing of a
directory) are passed in as explicit parameters; `uuid4` is modelled as a
supply of fresh strings indexed by position; fallible code (Python
exceptions) returns `Except String`.
-/

namespace SetupDemo

/-! ### POSIX path model (`pathlib.PurePosixPath`)

A parsed path is a number of root slashes (0 = relative, 1 = absolute,
2 = the POSIX double-slash special case; three or more leading slashes
collapse to 1, as in CPython) together with the list of non-empty,
non-`'.'` components.  `parseChars` is `Path(string)`, `PyPath.toChars`
is `str(path)`. -/

/-- Splits a character list on `'/'`, keeping empty components, the way
`pathlib` tokenizes a POSIX path string. -/
def splitSlash : List Char → List (List Char)
  | [] => [[]]
  | c :: cs =>
    if c = '/' then [] :: splitSlash cs
    else
      match splitSlash cs with
      | [] => [[c]]
      | g :: gs => (c :: g) :: gs

/-- Joins components with `'/'` (no trailing separator). -/
def joinSlash : List (List Char) → List Char
  | [] => []
  | [g] => g
  | g :: gs => g ++ '/' :: joinSlash gs

/-- Number of leading `'/'` characters. -/
def leadSlashes : List Char → Nat
  | [] => 0
  | c :: cs => if c = '/' then leadSlashes cs + 1 else 0

/-- A parsed `pathlib` path: root slash count plus components. -/
structure PyPath where
  rootN : Nat
  parts : List (List Char)
deriving DecidableEq

instance : Inhabited PyPath := ⟨⟨0, []⟩⟩

/-- `Path(s)` on a character list: count root slashes (two are special,
any other positive number collapses to one), split on `'/'`, drop empty
and `'.'` components. -/
def parseChars (s : List Char) : PyPath :=
  let n := leadSlashes s
  { rootN := if n = 0 then 0 else if n = 2 then 2 else 1,
    parts := (splitSlash s).filter fun g => !g.isEmpty && !(g == ['.']) }

/-- `str(path)`: the root slashes followed by the components joined with
`'/'`; the empty relative path prints as `"."`. -/
def PyPath.toChars (p : PyPath) : List Char :=
  if p.rootN == 0 && p.parts.isEmpty then ['.']
  else List.replicate p.rootN '/' ++ joinSlash p.parts

/-- `Path(s)` on a Lean `String`. -/
def parsePath (s : String) : PyPath := parseChars s.data

/-- `str(path)` as a Lean `String`. -/
def pathToString (p : PyPath) : String := String.mk p.toChars

/-- The invariant every path produced by `parseChars` satisfies: at most
two root slashes, and components that are non-empty, slash-free and not
`"."`. -/
def PyPath.WF (p : PyPath) : Prop :=
  p.rootN ≤ 2 ∧ ∀ g ∈ p.parts, g ≠ [] ∧ '/' ∉ g ∧ g ≠ ['.']

instance (p : PyPath) : Decidable p.WF :=
  inferInstanceAs (Decidable (_ ∧ _))

/-- The `/` operator of `pathlib`: parse the right operand; an absolute
right operand replaces the left one, a relative one appends its parts. -/
def pathJoin (p : PyPath) (s : String) : PyPath :=
  let q := parseChars s.data
  if q.rootN = 0 then { rootN := p.rootN, parts := p.parts ++ q.parts } else q

/-- `path.name`: the last component, or empty for a bare root. -/
def PyPath.nameOf (p : PyPath) : List Char := p.parts.getLast?.getD []

/-- `name[:i]` for `i = name.rfind('.')` when `0 < i < len(name) - 1`,
else the whole name: CPython's `PurePath.stem` on the final component. -/
def stemChars (g : List Char) : List Char :=
  match g.reverse.findIdx? fun c => c = '.' with
  | none => g
  | some j =>
    let i := g.length - 1 - j
    if 0 < i ∧ i < g.length - 1 then g.take i else g

/-- `path.stem` as a Lean `String`. -/
def PyPath.stem (p : PyPath) : String := String.mk (stemChars p.nameOf)

/-! ### Values and records

In the running Python program a record field such as `org['database']`
holds either a `Path` object or (after `write_demo_infra` stringifies the
shared dictionaries in place) a plain string; `PVal` is that union.
`pyStr` is Python's `str()` on such a value. -/

inductive PVal where
  | path (p : PyPath)
  | str (s : String)
deriving DecidableEq

/-- Python `str()` on a path-or-string value. -/
def pyStr : PVal → String
  | .path p => pathToString p
  | .str s => s

/-- A value is `Norm` when re-parsing its string form and printing it
again reproduces the same string; every genuine `Path` object built by
`pathlib` parsing satisfies it. -/
def PVal.Norm (v : PVal) : Prop := pathToString (parsePath (pyStr v)) = pyStr v

instance (v : PVal) : Decidable v.Norm :=
  inferInstanceAs (Decidable (pathToString (parsePath (pyStr v)) = pyStr v))

/-- One organization record (`org` dict of `DemoCreator.orgs`): the
identity `name` plus the optional generated fields. -/
structure Org where
  name : String
  database : Option PVal := none
  api_key : Option String := none
  username : Option String := none
  password : Option String := none
  node_config : Option PVal := none
deriving DecidableEq

instance : Inhabited Org := ⟨{ name := "" }⟩

/-- The `DemoCreator.server` dict. -/
structure Server where
  config_loc : Option PVal := none
  yaml_loc : Option PVal := none
deriving DecidableEq

/-- In-memory reconciliation state: the server record and the ordered
organization list. -/
structure State where
  server : Server
  orgs : List Org
deriving DecidableEq

/-- A serialized organization record (all path fields plain strings), as
stored in `v6-demo-infra.yaml`. -/
structure OrgS where
  name : String
  database : Option String := none
  api_key : Option String := none
  username : Option String := none
  password : Option String := none
  node_config : Option String := none
deriving DecidableEq

instance : Inhabited OrgS := ⟨{ name := "" }⟩

/-- The serialized server record. -/
structure ServerS where
  config_loc : Option String := none
  yaml_loc : Option String := none
deriving DecidableEq

/-- The serialized state file `{server: ..., orgs: [...]}`. -/
structure StateS where
  server : ServerS
  orgs : List OrgS
deriving DecidableEq

/-! ### Helper: an indexed map mirroring `for i in range(len(xs))` loops. -/

/-- Indexed map, carrying the running index. -/
def mapiGo (f : Nat → α → β) : Nat → List α → List β
  | _, [] => []
  | n, a :: as => f n a :: mapiGo f (n + 1) as

/-- Indexed map starting at 0. -/
def mapi (f : Nat → α → β) (l : List α) : List β := mapiGo f 0 l

/-- Fail-fast effectful map over `Except`, mirroring a Python `for` loop
that can raise: the first raising element aborts the whole loop. -/
def mapE (f : α → Except String β) : List α → Except String (List β)
  | [] => .ok []
  | a :: as =>
    match f a with
    | .error e => .error e
    | .ok b =>
      match mapE f as with
      | .error e => .error e
      | .ok bs => .ok (b :: bs)

/-! ### State Store (`DemoCreator.__init__` lines 26-53, `write_demo_infra`)

`load` is the path-validation half of `__init__`: for each of the four
path-valued fields, parse the stored string into a `Path` and keep it if
it exists on disk, otherwise drop the field and emit a warning.  The
filesystem is the explicit predicate `fs`.  `load` is a total function:
a missing referenced path can only drop a field, never fail the load. -/

/-- The warning text of lines 40 and 50 of `setupdemo.py`. -/
def warnMsg (p : PyPath) : String :=
  "path " ++ pathToString p ++ " not found, this will have to be regenerated"

/-- Validates one optional stored path string against the filesystem:
kept (as a parsed path) when it exists, dropped with a warning when not. -/
def checkPath (fs : PyPath → Bool) : Option String → Option PVal × List String
  | none => (none, [])
  | some s =>
    let p := parsePath s
    if fs p then (some (.path p), []) else (none, [warnMsg p])

/-- Recovers one organization record, validating its two path fields. -/
def loadOrg (fs : PyPath → Bool) (o : OrgS) : Org :=
  { name := o.name, api_key := o.api_key, username := o.username,
    password := o.password,
    node_config := (checkPath fs o.node_config).1,
    database := (checkPath fs o.database).1 }

/-- Lines 26-53 of `setupdemo.py`: recover the state, downgrading every
path field whose target no longer exists; warnings are collected in the
source's loop order (server keys first, then `node_config` over all
organizations, then `database` over all organizations). -/
def load (fs : PyPath → Bool) (c : StateS) : State × List String :=
  ( { server := { config_loc := (checkPath fs c.server.config_loc).1,
                  yaml_loc := (checkPath fs c.server.yaml_loc).1 },
      orgs := c.orgs.map (loadOrg fs) },
    (checkPath fs c.server.config_loc).2 ++ (checkPath fs c.server.yaml_loc).2
      ++ (c.orgs.map fun o => (checkPath fs o.node_config).2).flatten
      ++ (c.orgs.map fun o => (checkPath fs o.database).2).flatten )

/-- The serialized view of one organization (`org[key] = str(org[key])`). -/
def saveOrg (o : Org) : OrgS :=
  { name := o.name, api_key := o.api_key, username := o.username,
    password := o.password,
    node_config := o.node_config.map pyStr,
    database := o.database.map pyStr }

/-- The in-place effect of saving on one live organization record: the
list `config['orgs']` is a shallow copy, so stringifying `org[key]`
mutates the record the running program keeps using. -/
def mutOrg (o : Org) : Org :=
  { o with node_config := o.node_config.map fun v => .str (pyStr v),
           database := o.database.map fun v => .str (pyStr v) }

/-- `write_demo_infra` (lines 253-271): first component is the document
serialized to `v6-demo-infra.yaml`, second is the in-memory state after
the call.  `self.server` is copied before stringification, so the live
server record keeps its `Path` objects; the organization dicts are
shared, so their path fields become strings in memory too. -/
def write_demo_infra (st : State) : StateS × State :=
  ( { server := { config_loc := st.server.config_loc.map pyStr,
                  yaml_loc := st.server.yaml_loc.map pyStr },
      orgs := st.orgs.map saveOrg },
    { server := st.server, orgs := st.orgs.map mutOrg } )

/-! ### Resource Pool and Reconciler (`__init__` lines 56-74) -/

/-- A directory entry as `os.scandir`/`glob` enumerates it: a file name
and whether it is a regular file.  The enumeration order is the order of
the input list; `pathlib.Path.glob` applies no sorting of its own. -/
structure DirEntry where
  entryName : String
  isFile : Bool
deriving DecidableEq

/-- The glob pattern `*.csv` (fnmatch semantics): matches exactly the
names ending in `".csv"`. -/
def hasCsvSuffix (s : String) : Bool :=
  s.data.reverse.take 4 == ['v', 's', 'c', '.']

/-- Line 58: `[db for db in database_dir.glob('*.csv') if db.is_file()]`.
The `*.csv` pattern keeps exactly the names ending in `".csv"`, and the
enumeration order of the directory is preserved. -/
def listCandidates (dir : PyPath) (entries : List DirEntry) : List PyPath :=
  (entries.filter fun e => e.isFile && hasCsvSuffix e.entryName).map
    fun e => pathJoin dir e.entryName

/-- Lines 60-65: organization identity.  Recovered records win; otherwise
requested names, in order; otherwise one record per candidate file named
by its stem. -/
def initOrgs (recovered : List Org) (names : List String)
    (databases : List PyPath) : List Org :=
  if recovered.isEmpty then
    if names.isEmpty then databases.map fun db => { name := db.stem }
    else names.map fun n => { name := n }
  else recovered

/-- Lines 67-74: the database-assignment step.  When some organization
lacks a `database`, the candidate list is recycled with wraparound if it
is shorter than the organization list (`databases[i % len(databases)]`,
a `ZeroDivisionError` when there are no candidates at all) and then
`orgs[i]['database'] = databases[i]` is executed for every index `i`. -/
def assign_databases (orgs : List Org) (databases : List PyPath) :
    Except String (List Org) :=
  if orgs.any fun o => o.database.isNone then
    if orgs.length > databases.length then
      if databases.length = 0 then .error "ZeroDivisionError"
      else
        .ok (mapi
          (fun i o =>
            let d := databases.getD (i % databases.length) default
            { o with database := some (.path d) })
          orgs)
    else
      .ok (mapi
        (fun i o =>
          let d := databases.getD i default
          { o with database := some (.path d) })
        orgs)
  else .ok orgs

/-! ### Artifact Generators (org-record effects)

File contents written by the generators (YAML documents) are outside the
claims; the embeddings keep the record-field effects and the
failure behaviour. -/

/-- Line 80: `org.setdefault('api_key', str(uuid4()))` for the record at
position `i`, drawing the fresh uuid from the supply. -/
def apiOrg (fresh : Nat → String) (i : Nat) (o : Org) : Org :=
  if o.api_key.isSome then o else { o with api_key := some (fresh i) }

/-- `generate_api_keys` (lines 76-83): the `setdefault` pass over all
records (`uuid4` is evaluated for every record, so the supply is indexed
by position); an empty list only logs. -/
def generate_api_keys (fresh : Nat → String) (orgs : List Org) : List Org :=
  mapi (apiOrg fresh) orgs

/-- Line 89: `org.setdefault('username', f'{org["name"]}-user')`. -/
def setUser (o : Org) : Org :=
  if o.username.isSome then o
  else { o with username := some (o.name ++ "-user") }

/-- Line 90: `org.setdefault('password', f'{org["name"]}-demo-password')`. -/
def setPass (o : Org) : Org :=
  if o.password.isSome then o
  else { o with password := some (o.name ++ "-demo-password") }

/-- `generate_users` (lines 85-93): the two sequential `setdefault`
calls on every record. -/
def generate_users (orgs : List Org) : List Org :=
  orgs.map fun o => setPass (setUser o)

/-- `generate_entities_yaml` (lines 95-160), organization-record effect:
generate missing API keys and users first, then read `name`, `api_key`,
`username`, `password` of every record to build the manifest (a record
that still misses one of them raises `KeyError`).  The records themselves
are not otherwise modified. -/
def generate_entities_orgs (fresh : Nat → String) (orgs : List Org) :
    Except String (List Org) :=
  let orgs1 := if orgs.any fun o => o.api_key.isNone
               then generate_api_keys fresh orgs else orgs
  let orgs2 := if orgs1.any fun o => o.username.isNone
               then generate_users orgs1 else orgs1
  if orgs2.all fun o => o.api_key.isSome && o.username.isSome
      && o.password.isSome
  then .ok orgs2 else .error "KeyError"

/-- Line 189 and 198: the deterministic node-config location
`root_dir / 'v6_files/' / (name ++ '.yaml')`. -/
def node_config_path (root : PyPath) (nm : String) : PyPath :=
  pathJoin (pathJoin root "v6_files/") (nm ++ ".yaml")

/-- Lines 197-213, per-organization body: `org['node_config'] = config`
is assigned unconditionally, then `org['database'].resolve()` is read —
a `KeyError` when the field is absent (despite the warning of line 182),
an `AttributeError` when it is a post-save plain string. -/
def node_config_org (root : PyPath) (o : Org) : Except String Org :=
  let o2 := { o with node_config := some (.path (node_config_path root o.name)) }
  match o.database with
  | none => .error "KeyError: database"
  | some (.str _) => .error "AttributeError: resolve"
  | some (.path _) => .ok o2

/-- `generate_node_configs` (lines 176-213): empty list only logs;
otherwise missing API keys are generated first, then every record is
processed in order by `node_config_org`, aborting at the first raise. -/
def generate_node_configs (root : PyPath) (fresh : Nat → String)
    (orgs : List Org) : Except String (List Org) :=
  if orgs.isEmpty then .ok orgs
  else
    let orgs1 := if orgs.any fun o => o.api_key.isNone
                 then generate_api_keys fresh orgs else orgs
    mapE (node_config_org root) orgs1

/-! ### Specification predicates used by the statements below. -/

/-- The downgrade contract for one stored path field: an absent field
stays absent; a present one is kept (parsed) exactly when its path
exists, and is dropped with a warning in `warns` when it does not. -/
abbrev Downgraded (fs : PyPath → Bool) (stored : Option String)
    (loaded : Option PVal) (warns : List String) : Prop :=
  (stored = none → loaded = none) ∧
  ∀ s, stored = some s →
    (fs (parsePath s) = true → loaded = some (.path (parsePath s))) ∧
    (fs (parsePath s) = false →
      loaded = none ∧ warnMsg (parsePath s) ∈ warns)

/-- An optional field value whose string form re-parses stably. -/
def OptNorm : Option PVal → Prop
  | none => True
  | some v => v.Norm

instance : DecidablePred OptNorm := fun ov =>
  match ov with
  | none => .isTrue trivial
  | some v => inferInstanceAs (Decidable v.Norm)

/-- An optional field value whose path exists on the filesystem `fs`. -/
def OptExist (fs : PyPath → Bool) : Option PVal → Prop
  | none => True
  | some v => fs (parsePath (pyStr v)) = true

instance (fs : PyPath → Bool) : DecidablePred (OptExist fs) := fun ov =>
  match ov with
  | none => .isTrue trivial
  | some v => inferInstanceAs (Decidable (fs (parsePath (pyStr v)) = true))

/-- All path-valued fields of a state re-parse stably (true of every
state whose path fields are genuine `pathlib` values). -/
def StateNorm (st : State) : Prop :=
  OptNorm st.server.config_loc ∧ OptNorm st.server.yaml_loc ∧
  ∀ o ∈ st.orgs, OptNorm o.database ∧ OptNorm o.node_config

instance : DecidablePred StateNorm := fun st =>
  inferInstanceAs (Decidable (_ ∧ _ ∧ _))

/-- All path-valued fields of a state still exist on the filesystem. -/
def AllExist (fs : PyPath → Bool) (st : State) : Prop :=
  OptExist fs st.server.config_loc ∧ OptExist fs st.server.yaml_loc ∧
  ∀ o ∈ st.orgs, OptExist fs o.database ∧ OptExist fs o.node_config

instance (fs : PyPath → Bool) : DecidablePred (AllExist fs) := fun st =>
  inferInstanceAs (Decidable (_ ∧ _ ∧ _))

/-- The generate-if-missing contract on the credential fields: a pass
from `orgs` to `orgs'` keeps every record's `name`, and keeps the value
of `api_key`, `username` and `password` wherever they were already
set. -/
def Keeps (orgs orgs' : List Org) : Prop :=
  orgs'.length = orgs.length ∧
  ∀ i, i < orgs.length →
    (orgs'.getD i default).name = (orgs.getD i default).name ∧
    ((orgs.getD i default).api_key.isSome = true →
      (orgs'.getD i default).api_key = (orgs.getD i default).api_key) ∧
    ((orgs.getD i default).username.isSome = true →
      (orgs'.getD i default).username = (orgs.getD i default).username) ∧
    ((orgs.getD i default).password.isSome = true →
      (orgs'.getD i default).password = (orgs.getD i default).password)

/-- One successful generator invocation, as a step relation on the
organization list: the four generators of `DemoCreator` plus
`generate_server_config`, which does not touch organization records. -/
inductive GenStep (root : PyPath) : List Org → List Org → Prop
  | api_keys (fresh : Nat → String) (orgs : List Org) :
      GenStep root orgs (generate_api_keys fresh orgs)
  | users (orgs : List Org) :
      GenStep root orgs (generate_users orgs)
  | entities (fresh : Nat → String) (orgs orgs' : List Org) :
      generate_entities_orgs fresh orgs = .ok orgs' → GenStep root orgs orgs'
  | node_configs (fresh : Nat → String) (orgs orgs' : List Org) :
      generate_node_configs root fresh orgs = .ok orgs' →
      GenStep root orgs orgs'
  | server_config (orgs : List Org) : GenStep root orgs orgs

/-! ### List helper lemmas -/

theorem getD_eq_getElem (l : List α) (i : Nat) (d : α) (hi : i < l.length) :
    l.getD i d = l[i] := by
  induction l generalizing i with
  | nil => simp at hi
  | cons a as ih =>
    cases i with
    | zero => rfl
    | succ n => simpa using ih n (by simpa using hi)

theorem getD_mem (l : List α) (i : Nat) (d : α) (hi : i < l.length) :
    l.getD i d ∈ l := by
  rw [getD_eq_getElem l i d hi]
  exact List.getElem_mem hi

theorem getD_map (f : α → β) (l : List α) (i : Nat) (d : α) (d' : β)
    (hi : i < l.length) : (l.map f).getD i d' = f (l.getD i d) := by
  rw [getD_eq_getElem _ i d' (by simpa using hi), getD_eq_getElem l i d hi]
  simp

theorem length_mapiGo (f : Nat → α → β) (l : List α) (n : Nat) :
    (mapiGo f n l).length = l.length := by
  induction l generalizing n with
  | nil => rfl
  | cons a as ih => simpa [mapiGo] using ih (n + 1)

theorem length_mapi (f : Nat → α → β) (l : List α) :
    (mapi f l).length = l.length := length_mapiGo f l 0

theorem getD_mapiGo (f : Nat → α → β) (l : List α) (n i : Nat) (d : α)
    (d' : β) (hi : i < l.length) :
    (mapiGo f n l).getD i d' = f (n + i) (l.getD i d) := by
  induction l generalizing n i with
  | nil => simp at hi
  | cons a as ih =>
    cases i with
    | zero => rfl
    | succ m =>
      have h := ih (n + 1) m (by simpa using hi)
      simpa [mapiGo, Nat.add_assoc, Nat.add_comm 1 m] using h

theorem getD_mapi (f : Nat → α → β) (l : List α) (i : Nat) (d : α) (d' : β)
    (hi : i < l.length) : (mapi f l).getD i d' = f i (l.getD i d) := by
  simpa using getD_mapiGo f l 0 i d d' hi

theorem mapE_ok (f : α → Except String β) (l : List α) (l' : List β)
    (h : mapE f l = .ok l') :
    l'.length = l.length ∧
      ∀ i, i < l.length → ∀ (d : α) (d' : β),
        f (l.getD i d) = .ok (l'.getD i d') := by
  induction l generalizing l' with
  | nil =>
    cases h
    exact ⟨rfl, by intro i hi; simp at hi⟩
  | cons a as ih =>
    cases hfa : f a with
    | error e => rw [mapE, hfa] at h; cases h
    | ok b =>
      cases hm : mapE f as with
      | error e => rw [mapE, hfa, hm] at h; cases h
      | ok bs =>
        rw [mapE, hfa, hm] at h
        cases h
        obtain ⟨hlen, hget⟩ := ih bs hm
        refine ⟨by simpa using hlen, ?_⟩
        intro i hi d d'
        cases i with
        | zero => simpa using hfa
        | succ m => exact hget m (by simpa using hi) d d'

/-! ### Path model lemmas: `str(Path(str(p))) = str(p)` for well-formed
parsed paths. -/

theorem splitSlash_ne_nil (s : List Char) : splitSlash s ≠ [] := by
  cases s with
  | nil => simp [splitSlash]
  | cons c cs =>
    rw [splitSlash]
    by_cases h : c = '/'
    · simp [h]
    · simp only [if_neg h]
      cases splitSlash cs <;> simp

theorem splitSlash_slash_cons (cs : List Char) :
    splitSlash ('/' :: cs) = [] :: splitSlash cs := by
  simp [splitSlash]

theorem splitSlash_no_slash (g : List Char) (h : '/' ∉ g) :
    splitSlash g = [g] := by
  induction g with
  | nil => rfl
  | cons c cs ih =>
    have hc : c ≠ '/' := fun hc => h (hc ▸ List.mem_cons_self c cs)
    have hcs : '/' ∉ cs := fun hm => h (List.mem_cons_of_mem c hm)
    rw [splitSlash, if_neg hc, ih hcs]

theorem splitSlash_append (g t : List Char) (h : '/' ∉ g) :
    splitSlash (g ++ '/' :: t) = g :: splitSlash t := by
  induction g with
  | nil => simpa using splitSlash_slash_cons t
  | cons c cs ih =>
    have hc : c ≠ '/' := fun hc => h (hc ▸ List.mem_cons_self c cs)
    have hcs : '/' ∉ cs := fun hm => h (List.mem_cons_of_mem c hm)
    rw [List.cons_append, splitSlash, if_neg hc, ih hcs]

theorem joinSlash_cons_cons (g g' : List Char) (gs : List (List Char)) :
    joinSlash (g :: g' :: gs) = g ++ '/' :: joinSlash (g' :: gs) := rfl

theorem splitSlash_joinSlash (L : List (List Char)) (hne : L ≠ [])
    (h : ∀ g ∈ L, '/' ∉ g) : splitSlash (joinSlash L) = L := by
  induction L with
  | nil => exact absurd rfl hne
  | cons g gs ih =>
    cases gs with
    | nil =>
      show splitSlash (joinSlash [g]) = [g]
      exact splitSlash_no_slash g (h g (List.mem_cons_self g []))
    | cons g' gs' =>
      rw [joinSlash_cons_cons,
        splitSlash_append g _ (h g (List.mem_cons_self g _)),
        ih (by simp) (fun x hx => h x (List.mem_cons_of_mem g hx))]

theorem leadSlashes_cons_ne (c : Char) (cs : List Char) (hc : c ≠ '/') :
    leadSlashes (c :: cs) = 0 := by
  simp [leadSlashes, hc]

theorem leadSlashes_append_eq_zero (g t : List Char) (hg : g ≠ [])
    (h : '/' ∉ g) : leadSlashes (g ++ t) = 0 := by
  cases g with
  | nil => exact absurd rfl hg
  | cons c cs =>
    have hc : c ≠ '/' := fun hc => h (hc ▸ List.mem_cons_self c cs)
    simpa using leadSlashes_cons_ne c (cs ++ t) hc

theorem leadSlashes_replicate_append (k : Nat) (t : List Char) :
    leadSlashes (List.replicate k '/' ++ t) = k + leadSlashes t := by
  induction k with
  | zero => simp
  | succ n ih =>
    rw [List.replicate_succ, List.cons_append]
    show leadSlashes ('/' :: (List.replicate n '/' ++ t)) = _
    simp [leadSlashes, ih]
    omega

theorem splitSlash_replicate_append (k : Nat) (t : List Char) :
    splitSlash (List.replicate k '/' ++ t) =
      List.replicate k [] ++ splitSlash t := by
  induction k with
  | zero => simp
  | succ n ih =>
    rw [List.replicate_succ, List.cons_append, splitSlash_slash_cons, ih,
      List.replicate_succ, List.cons_append]

theorem joinSlash_head_append (g : List Char) (gs : List (List Char)) :
    ∃ t, joinSlash (g :: gs) = g ++ t := by
  cases gs with
  | nil => exact ⟨[], by simp [joinSlash]⟩
  | cons g' gs' => exact ⟨'/' :: joinSlash (g' :: gs'), rfl⟩

/-- The component filter of `parseChars` keeps every well-formed
component and drops empty ones. -/
theorem filter_keeps_wf (L : List (List Char))
    (h : ∀ g ∈ L, g ≠ [] ∧ g ≠ ['.']) :
    (L.filter fun g => !g.isEmpty && !(g == ['.'])) = L := by
  rw [List.filter_eq_self]
  intro g hg
  obtain ⟨h1, h2⟩ := h g hg
  simp [List.isEmpty_iff, h1, h2]

theorem parse_toChars (p : PyPath) (h : p.WF) : parseChars p.toChars = p := by
  obtain ⟨hroot, hparts⟩ := h
  obtain ⟨r, parts⟩ := p
  simp only at hroot hparts
  cases parts with
  | nil =>
    interval_cases r
    · rfl
    · rfl
    · rfl
  | cons g gs =>
    have hwf : ∀ x ∈ g :: gs, x ≠ [] ∧ '/' ∉ x ∧ x ≠ ['.'] := hparts
    have hg := hwf g (List.mem_cons_self g gs)
    have htoc : PyPath.toChars ⟨r, g :: gs⟩ =
        List.replicate r '/' ++ joinSlash (g :: gs) := by
      simp [PyPath.toChars]
    have hlead : leadSlashes (List.replicate r '/' ++ joinSlash (g :: gs)) =
        r := by
      obtain ⟨t, ht⟩ := joinSlash_head_append g gs
      rw [leadSlashes_replicate_append, ht,
        leadSlashes_append_eq_zero g t hg.1 hg.2.1]
      omega
    have hsplit : (splitSlash (List.replicate r '/' ++
        joinSlash (g :: gs))).filter (fun x => !x.isEmpty && !(x == ['.'])) =
        g :: gs := by
      rw [splitSlash_replicate_append,
        splitSlash_joinSlash _ (by simp) (fun x hx => (hwf x hx).2.1),
        List.filter_append,
        filter_keeps_wf _ (fun x hx => ⟨(hwf x hx).1, (hwf x hx).2.2⟩)]
      have : (List.replicate r ([] : List Char)).filter
          (fun x => !x.isEmpty && !(x == ['.'])) = [] := by
        rw [List.filter_eq_nil_iff]
        intro x hx
        rw [List.eq_of_mem_replicate hx]
        simp
      rw [this, List.nil_append]
    rw [htoc]
    show parseChars _ = _
    rw [parseChars]
    simp only [hlead, hsplit]
    interval_cases r
    · rfl
    · rfl
    · rfl

theorem parsePath_pathToString (p : PyPath) (h : p.WF) :
    parsePath (pathToString p) = p := parse_toChars p h

/-- Every well-formed parsed path is a `Norm` value: printing, parsing
and printing again is stable. -/
theorem norm_of_wf (p : PyPath) (h : p.WF) : (PVal.path p).Norm := by
  show pathToString (parsePath (pathToString p)) = pathToString p
  rw [parsePath_pathToString p h]

/-- No component produced by `splitSlash` contains a slash. -/
theorem splitSlash_no_slash_mem (s : List Char) :
    ∀ g ∈ splitSlash s, '/' ∉ g := by
  induction s with
  | nil =>
    intro g hg
    rw [show splitSlash [] = [[]] from rfl] at hg
    rw [List.mem_singleton.mp hg]
    simp
  | cons c cs ih =>
    intro g hg
    rw [splitSlash] at hg
    by_cases hc : c = '/'
    · rw [if_pos hc] at hg
      rcases List.mem_cons.mp hg with h | h
      · rw [h]; simp
      · exact ih g h
    · rw [if_neg hc] at hg
      cases hsp : splitSlash cs with
      | nil => exact absurd hsp (splitSlash_ne_nil cs)
      | cons g0 gs0 =>
        rw [hsp] at hg
        rcases List.mem_cons.mp hg with h | h
        · rw [h]
          intro hs
          rcases List.mem_cons.mp hs with h' | h'
          · exact hc h'.symm
          · have hg0 : g0 ∈ splitSlash cs := by
              rw [hsp]
              exact List.mem_cons_self g0 gs0
            exact ih g0 hg0 h'
        · have hgs : g ∈ splitSlash cs := by
            rw [hsp]
            exact List.mem_cons_of_mem g0 h
          exact ih g hgs

/-- `Path(s)` always produces a well-formed path, so every path object
the program builds by parsing satisfies the stability invariant. -/
theorem parseChars_wf (s : List Char) : (parseChars s).WF := by
  constructor
  · show (if leadSlashes s = 0 then 0 else if leadSlashes s = 2 then 2
        else 1) ≤ 2
    split <;> [omega; skip]
    split <;> omega
  · intro g hg
    rw [parseChars] at hg
    simp only [List.mem_filter] at hg
    obtain ⟨hmem, hpred⟩ := hg
    have h1 : g ≠ [] := by
      intro he
      rw [he] at hpred
      simp at hpred
    have h2 : g ≠ ['.'] := by
      intro he
      rw [he] at hpred
      simp at hpred
    exact ⟨h1, splitSlash_no_slash_mem s g hmem, h2⟩

/-! ### Generator-level helper lemmas -/

theorem generate_api_keys_getD (fresh : Nat → String) (orgs : List Org)
    (i : Nat) (hi : i < orgs.length) :
    (generate_api_keys fresh orgs).getD i default =
      apiOrg fresh i (orgs.getD i default) :=
  getD_mapi _ orgs i default default hi

theorem generate_api_keys_length (fresh : Nat → String) (orgs : List Org) :
    (generate_api_keys fresh orgs).length = orgs.length :=
  length_mapi _ orgs

theorem generate_users_getD (orgs : List Org) (i : Nat)
    (hi : i < orgs.length) :
    (generate_users orgs).getD i default =
      setPass (setUser (orgs.getD i default)) :=
  getD_map _ orgs i default default hi

theorem generate_users_length (orgs : List Org) :
    (generate_users orgs).length = orgs.length := List.length_map orgs _

/-- Fields other than `api_key` are untouched by the key `setdefault`,
and a present `api_key` survives it. -/
theorem apiOrg_fields (fresh : Nat → String) (i : Nat) (o : Org) :
    (apiOrg fresh i o).name = o.name ∧
    (apiOrg fresh i o).database = o.database ∧
    (apiOrg fresh i o).username = o.username ∧
    (apiOrg fresh i o).password = o.password ∧
    (apiOrg fresh i o).node_config = o.node_config ∧
    (o.api_key.isSome = true → (apiOrg fresh i o).api_key = o.api_key) := by
  rw [apiOrg]
  by_cases h : o.api_key.isSome = true
  · rw [if_pos h]
    exact ⟨rfl, rfl, rfl, rfl, rfl, fun _ => rfl⟩
  · rw [if_neg h]
    exact ⟨rfl, rfl, rfl, rfl, rfl, fun hs => absurd hs h⟩

/-- Fields other than the credential pair are untouched by the user
`setdefault` pair, and present `username`/`password` values survive. -/
theorem userOrg_fields (o : Org) :
    (setPass (setUser o)).name = o.name ∧
    (setPass (setUser o)).database = o.database ∧
    (setPass (setUser o)).api_key = o.api_key ∧
    (setPass (setUser o)).node_config = o.node_config ∧
    (o.username.isSome = true →
      (setPass (setUser o)).username = o.username) ∧
    (o.password.isSome = true →
      (setPass (setUser o)).password = o.password) := by
  by_cases hu : o.username.isSome = true <;>
    by_cases hp : o.password.isSome = true <;>
      simp [setUser, setPass, hu, hp]

/-- The per-record body of `generate_node_configs` on success: only
`node_config` changes, and it changes to the deterministic location. -/
theorem node_config_org_ok (root : PyPath) (o o' : Org)
    (h : node_config_org root o = .ok o') :
    o' = { o with node_config := some (.path (node_config_path root o.name)) } := by
  rw [node_config_org] at h
  cases hdb : o.database with
  | none => rw [hdb] at h; cases h
  | some v =>
    cases v with
    | str s => rw [hdb] at h; cases h
    | path p => rw [hdb] at h; cases h; rfl

/-- Whenever some record lacks a `database` and at least one candidate
exists, the assignment loop of lines 67-74 (re)assigns candidate
`i mod M` to the record at every index `i` — including records whose
`database` was already set. -/
theorem assign_databases_all (orgs : List Org) (dbs : List PyPath)
    (hany : (orgs.any fun o => o.database.isNone) = true)
    (hM : 0 < dbs.length) :
    ∃ orgs', assign_databases orgs dbs = .ok orgs' ∧
      orgs'.length = orgs.length ∧
      ∀ i, i < orgs.length →
        orgs'.getD i default =
          { orgs.getD i default with
            database := some (.path (dbs.getD (i % dbs.length) default)) } := by
  simp only [assign_databases, if_pos hany]
  by_cases hgt : orgs.length > dbs.length
  · rw [if_pos hgt, if_neg (by omega : ¬dbs.length = 0)]
    refine ⟨_, rfl, length_mapi _ orgs, ?_⟩
    intro i hi
    rw [getD_mapi _ orgs i default default hi]
  · rw [if_neg hgt]
    refine ⟨_, rfl, length_mapi _ orgs, ?_⟩
    intro i hi
    rw [getD_mapi _ orgs i default default hi]
    have hmod : i % dbs.length = i := Nat.mod_eq_of_lt (by omega)
    rw [hmod]

theorem keeps_refl (orgs : List Org) : Keeps orgs orgs :=
  ⟨rfl, fun _ _ => ⟨rfl, fun _ => rfl, fun _ => rfl, fun _ => rfl⟩⟩

theorem keeps_trans (a b c : List Org) (h1 : Keeps a b) (h2 : Keeps b c) :
    Keeps a c := by
  obtain ⟨hl1, hf1⟩ := h1
  obtain ⟨hl2, hf2⟩ := h2
  refine ⟨hl2.trans hl1, ?_⟩
  intro i hi
  have hib : i < b.length := by omega
  obtain ⟨hn1, ha1, hu1, hp1⟩ := hf1 i hi
  obtain ⟨hn2, ha2, hu2, hp2⟩ := hf2 i hib
  refine ⟨hn2.trans hn1, ?_, ?_, ?_⟩
  · intro hs
    have hb := ha1 hs
    have hbs : (b.getD i default).api_key.isSome = true := by rw [hb]; exact hs
    exact (ha2 hbs).trans hb
  · intro hs
    have hb := hu1 hs
    have hbs : (b.getD i default).username.isSome = true := by rw [hb]; exact hs
    exact (hu2 hbs).trans hb
  · intro hs
    have hb := hp1 hs
    have hbs : (b.getD i default).password.isSome = true := by rw [hb]; exact hs
    exact (hp2 hbs).trans hb

theorem keeps_api (fresh : Nat → String) (orgs : List Org) :
    Keeps orgs (generate_api_keys fresh orgs) := by
  refine ⟨generate_api_keys_length fresh orgs, ?_⟩
  intro i hi
  rw [generate_api_keys_getD fresh orgs i hi]
  obtain ⟨hn, _, hu, hp, _, ha⟩ := apiOrg_fields fresh i (orgs.getD i default)
  exact ⟨hn, ha, fun _ => hu, fun _ => hp⟩

theorem keeps_users (orgs : List Org) :
    Keeps orgs (generate_users orgs) := by
  refine ⟨generate_users_length orgs, ?_⟩
  intro i hi
  rw [generate_users_getD orgs i hi]
  obtain ⟨hn, _, ha, _, hu, hp⟩ := userOrg_fields (orgs.getD i default)
  exact ⟨hn, fun _ => ha, hu, hp⟩

theorem keeps_entities (fresh : Nat → String) (orgs orgs' : List Org)
    (h : generate_entities_orgs fresh orgs = .ok orgs') :
    Keeps orgs orgs' := by
  rw [generate_entities_orgs] at h
  set orgs1 := if orgs.any fun o => o.api_key.isNone
    then generate_api_keys fresh orgs else orgs with h1
  set orgs2 := if orgs1.any fun o => o.username.isNone
    then generate_users orgs1 else orgs1 with h2
  have k1 : Keeps orgs orgs1 := by
    rw [h1]
    split
    · exact keeps_api fresh orgs
    · exact keeps_refl orgs
  have k2 : Keeps orgs1 orgs2 := by
    rw [h2]
    split
    · exact keeps_users orgs1
    · exact keeps_refl orgs1
  have hok : orgs2 = orgs' := by
    by_cases hall : (orgs2.all fun o => o.api_key.isSome && o.username.isSome
        && o.password.isSome) = true
    · rw [if_pos hall] at h
      exact Except.ok.inj h
    · rw [if_neg hall] at h
      cases h
  exact hok ▸ keeps_trans orgs orgs1 orgs2 k1 k2

/-- `generate_node_configs` on success keeps the credential fields and
forces `node_config` at every index to the deterministic location keyed
by the (preserved) organization name. -/
theorem keeps_node_configs (root : PyPath) (fresh : Nat → String)
    (orgs orgs' : List Org)
    (h : generate_node_configs root fresh orgs = .ok orgs') :
    Keeps orgs orgs' ∧
      ∀ i, i < orgs.length →
        (orgs'.getD i default).node_config =
          some (.path (node_config_path root (orgs.getD i default).name)) := by
  rw [generate_node_configs] at h
  by_cases hemp : orgs.isEmpty = true
  · rw [if_pos hemp] at h
    have : orgs = orgs' := Except.ok.inj h
    refine ⟨this ▸ keeps_refl orgs, ?_⟩
    intro i hi
    rw [List.isEmpty_iff.mp hemp] at hi
    simp at hi
  · rw [if_neg hemp] at h
    set orgs1 := if orgs.any fun o => o.api_key.isNone
      then generate_api_keys fresh orgs else orgs with h1
    have k1 : Keeps orgs orgs1 := by
      rw [h1]
      split
      · exact keeps_api fresh orgs
      · exact keeps_refl orgs
    obtain ⟨hlen, hget⟩ := mapE_ok (node_config_org root) orgs1 orgs' h
    have hlen1 : orgs1.length = orgs.length := k1.1
    have k2 : Keeps orgs1 orgs' := by
      refine ⟨hlen, ?_⟩
      intro i hi
      have heq := node_config_org_ok root (orgs1.getD i default)
        (orgs'.getD i default) (hget i hi default default)
      rw [heq]
      exact ⟨rfl, fun _ => rfl, fun _ => rfl, fun _ => rfl⟩
    refine ⟨keeps_trans orgs orgs1 orgs' k1 k2, ?_⟩
    intro i hi
    have hi1 : i < orgs1.length := by omega
    have heq := node_config_org_ok root (orgs1.getD i default)
      (orgs'.getD i default) (hget i hi1 default default)
    rw [heq]
    have hname : (orgs1.getD i default).name = (orgs.getD i default).name :=
      (k1.2 i hi).1
    rw [hname]

/-! ### Claim theorems -/

/-- C1, counterexample: two recovered records, the first with
`database` already set to `old.csv`, the second without; candidates
`[a.csv, b.csv]`.  The assignment step rewrites the first record's
`database` to `a.csv`, so a record recovered with `database` set does
NOT keep its value. -/
theorem assign_databases_overwrites_cex :
    assign_databases
        [{ name := "org1", database := some (.path (parsePath "old.csv")) },
         { name := "org2" }]
        [parsePath "a.csv", parsePath "b.csv"] =
      .ok
        [{ name := "org1", database := some (.path (parsePath "a.csv")) },
         { name := "org2", database := some (.path (parsePath "b.csv")) }] ∧
      some (PVal.path (parsePath "a.csv")) ≠
        some (PVal.path (parsePath "old.csv")) := by
  exact ⟨rfl, by decide⟩

/-- C1, amended: the database-assignment step either touches nothing
(when every record already has a `database`) or — as soon as a single
record lacks one and candidates exist — overwrites the `database` of
every record with candidate `i mod M`, prior values included. -/
theorem assign_databases_all_or_nothing (orgs : List Org)
    (dbs : List PyPath) :
    ((∀ o ∈ orgs, o.database.isSome) →
      assign_databases orgs dbs = .ok orgs) ∧
    ((orgs.any fun o => o.database.isNone) = true → 0 < dbs.length →
      ∃ orgs', assign_databases orgs dbs = .ok orgs' ∧
        orgs'.length = orgs.length ∧
        ∀ i, i < orgs.length →
          orgs'.getD i default =
            { orgs.getD i default with
              database :=
                some (.path (dbs.getD (i % dbs.length) default)) }) := by
  constructor
  · intro hall
    have hfalse : (orgs.any fun o => o.database.isNone) = false := by
      rw [List.any_eq_false]
      intro o ho
      have hs := hall o ho
      simp only [Option.isNone_iff_eq_none]
      intro hn
      rw [hn] at hs
      cases hs
    simp only [assign_databases, hfalse, Bool.false_eq_true, if_false]
  · exact assign_databases_all orgs dbs

/-- Witness for the amended C1 theorem at a concrete input. -/
theorem assign_databases_all_or_nothing_witness :
    ∃ orgs',
      assign_databases
          [{ name := "org1",
             database := some (.path (parsePath "old.csv")) },
           { name := "org2" }]
          [parsePath "x.csv"] = .ok orgs' ∧
      orgs'.length = 2 ∧
      ∀ i, i < 2 →
        orgs'.getD i default =
          { ([{ name := "org1",
                database := some (.path (parsePath "old.csv")) },
              { name := "org2" }] : List Org).getD i default with
            database :=
              some (.path (([parsePath "x.csv"] : List PyPath).getD
                (i % 1) default)) } :=
  (assign_databases_all_or_nothing
    [{ name := "org1", database := some (.path (parsePath "old.csv")) },
     { name := "org2" }]
    [parsePath "x.csv"]).2 (by decide) (by decide)

/-- C2: with a non-empty organization list whose records lack a
`database` and zero candidate files, line 71 evaluates
`databases[i % len(databases)]` with `len(databases) = 0` and raises
`ZeroDivisionError` — the run aborts instead of warning. -/
theorem assign_databases_empty_candidates_raises :
    assign_databases [{ name := "alice" }] [] =
      .error "ZeroDivisionError" := rfl

/-- C3: `generate_node_configs` on an organization that lacks a
`database` raises `KeyError` at line 203 (`org['database'].resolve()`)
instead of writing the config with the field left for manual
completion. -/
theorem generate_node_configs_missing_database_raises :
    generate_node_configs (parsePath ".") (fun _ => "uuid-0")
      [{ name := "alice", api_key := some "k" }] =
      .error "KeyError: database" := rfl

/-- C5: with `N` organizations all lacking a `database` and `0 < M < N`
candidates, the assignment step succeeds and organization `i` receives
candidate `i mod M`. -/
theorem assign_databases_recycles (orgs : List Org) (dbs : List PyPath)
    (hall : ∀ o ∈ orgs, o.database = none)
    (hM : 0 < dbs.length) (hlt : dbs.length < orgs.length) :
    ∃ orgs', assign_databases orgs dbs = .ok orgs' ∧
      orgs'.length = orgs.length ∧
      ∀ i, i < orgs.length →
        (orgs'.getD i default).database =
          some (.path (dbs.getD (i % dbs.length) default)) := by
  have hpos : 0 < orgs.length := lt_trans hM hlt
  have hany : (orgs.any fun o => o.database.isNone) = true := by
    rw [List.any_eq_true]
    obtain ⟨o, ho⟩ := List.exists_mem_of_length_pos hpos
    exact ⟨o, ho, by rw [hall o ho]; rfl⟩
  obtain ⟨orgs', heq, hlen, hget⟩ := assign_databases_all orgs dbs hany hM
  refine ⟨orgs', heq, hlen, ?_⟩
  intro i hi
  rw [hget i hi]

/-- Witness for the recycling theorem: 3 blank organizations, 1
candidate — every organization receives that candidate. -/
theorem assign_databases_recycles_witness :
    ∃ orgs',
      assign_databases
          [{ name := "a" }, { name := "b" }, { name := "c" }]
          [parsePath "only.csv"] = .ok orgs' ∧
      orgs'.length = 3 ∧
      ∀ i, i < 3 →
        (orgs'.getD i default).database =
          some (.path (([parsePath "only.csv"] : List PyPath).getD
            (i % 1) default)) := by
  have h := assign_databases_recycles
    [{ name := "a" }, { name := "b" }, { name := "c" }]
    [parsePath "only.csv"] (by decide) (by decide) (by decide)
  simpa using h

/-- C4, counterexample: a record whose `node_config` is already set (to
`other.yaml`, e.g. recovered from a prior state file) has it replaced by
the freshly computed location `v6_files/alice.yaml` when
`generate_node_configs` runs — line 199 assigns unconditionally, so
`node_config` does not follow generate-if-missing semantics. -/
theorem node_config_overwritten_cex :
    generate_node_configs (parsePath ".") (fun _ => "u")
        [{ name := "alice",
           database := some (.path (parsePath "data.csv")),
           api_key := some "k", username := some "us",
           password := some "pw",
           node_config := some (.path (parsePath "other.yaml")) }] =
      .ok [{ name := "alice",
             database := some (.path (parsePath "data.csv")),
             api_key := some "k", username := some "us",
             password := some "pw",
             node_config :=
               some (.path (parsePath "v6_files/alice.yaml")) }] ∧
    some (PVal.path (parsePath "v6_files/alice.yaml")) ≠
      some (PVal.path (parsePath "other.yaml")) :=
  ⟨rfl, by decide⟩

/-- C4, amended: `api_key`, `username` and `password` do follow
generate-if-missing semantics — once set, no generator invocation
(successful `GenStep`) changes them; `node_config`, however, is
unconditionally rewritten by every node-config generation to the
deterministic location `root/v6_files/{name}.yaml`, which may differ
from a previously recorded value. -/
theorem generators_keep_set_fields (root : PyPath) :
    (∀ orgs orgs', GenStep root orgs orgs' → Keeps orgs orgs') ∧
    (∀ fresh orgs orgs',
      generate_node_configs root fresh orgs = .ok orgs' →
      ∀ i, i < orgs.length →
        (orgs'.getD i default).node_config =
          some (.path (node_config_path root
            (orgs.getD i default).name))) := by
  constructor
  · intro orgs orgs' hstep
    cases hstep with
    | api_keys fresh orgs => exact keeps_api fresh orgs
    | users orgs => exact keeps_users orgs
    | entities fresh orgs orgs' h => exact keeps_entities fresh orgs orgs' h
    | node_configs fresh orgs orgs' h =>
      exact (keeps_node_configs root fresh orgs orgs' h).1
    | server_config orgs => exact keeps_refl orgs
  · intro fresh orgs orgs' h
    exact (keeps_node_configs root fresh orgs orgs' h).2

/-- Witness for the amended C4 theorem: a concrete node-config step on a
fully populated record keeps its `api_key`. -/
theorem generators_keep_set_fields_witness :
    (([{ name := "alice",
         database := some (.path (parsePath "data.csv")),
         api_key := some "k", username := some "us", password := some "pw",
         node_config :=
           some (.path (parsePath "other.yaml")) }].map
        (fun o => setPass (setUser o))).getD 0 default).api_key =
      some "k" := by
  have h := (generators_keep_set_fields (parsePath ".")).1
    [{ name := "alice",
       database := some (.path (parsePath "data.csv")),
       api_key := some "k", username := some "us", password := some "pw",
       node_config := some (.path (parsePath "other.yaml")) }]
    (generate_users
      [{ name := "alice",
         database := some (.path (parsePath "data.csv")),
         api_key := some "k", username := some "us", password := some "pw",
         node_config := some (.path (parsePath "other.yaml")) }])
    (GenStep.users _)
  exact ((h.2 0 (by decide)).2.1 (by decide)).trans (by decide)

/-- C8: organization identity — recovered records are used as-is with
requested names ignored; with no recovered records, one record per
requested name in order; with neither, one record per candidate file
named by the file's stem, in enumeration order. -/
theorem initOrgs_identity (recovered : List Org) (names : List String)
    (dbs : List PyPath) :
    (recovered ≠ [] → initOrgs recovered names dbs = recovered) ∧
    (recovered = [] → names ≠ [] →
      initOrgs recovered names dbs =
        names.map fun n => ({ name := n } : Org)) ∧
    (recovered = [] → names = [] →
      initOrgs recovered names dbs =
        dbs.map fun db => ({ name := db.stem } : Org)) := by
  refine ⟨?_, ?_, ?_⟩
  · intro h
    have hne : ¬(recovered.isEmpty = true) := by
      simpa [List.isEmpty_iff] using h
    rw [initOrgs, if_neg hne]
  · intro h hn
    have he : recovered.isEmpty = true := by simp [List.isEmpty_iff, h]
    have hnn : ¬(names.isEmpty = true) := by
      simpa [List.isEmpty_iff] using hn
    rw [initOrgs, if_pos he, if_neg hnn]
  · intro h hn
    have he : recovered.isEmpty = true := by simp [List.isEmpty_iff, h]
    have hne : names.isEmpty = true := by simp [List.isEmpty_iff, hn]
    rw [initOrgs, if_pos he, if_pos hne]

/-- Witness for the identity theorem: two requested names from an empty
state give exactly those two records in order. -/
theorem initOrgs_identity_witness :
    initOrgs [] ["alice", "bob"] [] =
      [{ name := "alice" }, { name := "bob" }] := by
  have h := (initOrgs_identity [] ["alice", "bob"] []).2.1 rfl (by decide)
  simpa using h

/-- C9, counterexample: a directory whose enumeration order is
`b.csv, a.csv, c.txt` (all regular files).  The candidate list keeps the
enumeration order `b, a` — not the lexicographic order — and excludes
the regular file `c.txt`, so it is neither "the set of regular files"
nor lexicographically sorted. -/
theorem listCandidates_unsorted_cex :
    listCandidates (parsePath "databases")
        [⟨"b.csv", true⟩, ⟨"a.csv", true⟩, ⟨"c.txt", true⟩] =
      [pathJoin (parsePath "databases") "b.csv",
       pathJoin (parsePath "databases") "a.csv"] ∧
    listCandidates (parsePath "databases")
        [⟨"b.csv", true⟩, ⟨"a.csv", true⟩, ⟨"c.txt", true⟩] ≠
      [pathJoin (parsePath "databases") "a.csv",
       pathJoin (parsePath "databases") "b.csv"] ∧
    pathJoin (parsePath "databases") "c.txt" ∉
      listCandidates (parsePath "databases")
        [⟨"b.csv", true⟩, ⟨"a.csv", true⟩, ⟨"c.txt", true⟩] := by
  exact ⟨rfl, by decide, by decide⟩

/-- C9, amended: the candidate list is the sub-sequence of the
directory's entries that are regular files matching `*.csv`, in the
directory's enumeration order (no sorting is applied); it contains
exactly the `*.csv` regular files. -/
theorem listCandidates_enumeration_order (dir : PyPath)
    (entries : List DirEntry) :
    List.Sublist (listCandidates dir entries)
      (entries.map fun e => pathJoin dir e.entryName) ∧
    ∀ p, p ∈ listCandidates dir entries ↔
      ∃ e ∈ entries, e.isFile = true ∧
        hasCsvSuffix e.entryName = true ∧
        p = pathJoin dir e.entryName := by
  constructor
  · exact List.Sublist.map _ (List.filter_sublist entries)
  · intro p
    simp only [listCandidates, List.mem_map, List.mem_filter]
    constructor
    · rintro ⟨e, ⟨he, hpred⟩, rfl⟩
      rw [Bool.and_eq_true] at hpred
      exact ⟨e, he, hpred.1, hpred.2, rfl⟩
    · rintro ⟨e, he, h1, h2, rfl⟩
      refine ⟨e, ⟨he, ?_⟩, rfl⟩
      rw [Bool.and_eq_true]
      exact ⟨h1, h2⟩

theorem mutOrg_fields (o : Org) :
    (mutOrg o).name = o.name ∧ (mutOrg o).api_key = o.api_key ∧
    (mutOrg o).username = o.username ∧ (mutOrg o).password = o.password ∧
    (mutOrg o).database = o.database.map (fun v => .str (pyStr v)) ∧
    (mutOrg o).node_config =
      o.node_config.map (fun v => .str (pyStr v)) ∧
    (∀ v, (mutOrg o).database = some v → ∃ s, v = PVal.str s) ∧
    (∀ v, (mutOrg o).node_config = some v → ∃ s, v = PVal.str s) := by
  refine ⟨rfl, rfl, rfl, rfl, rfl, rfl, ?_, ?_⟩
  · intro v hv
    cases hdb : o.database with
    | none =>
      rw [show (mutOrg o).database =
        o.database.map (fun v => .str (pyStr v)) from rfl, hdb] at hv
      cases hv
    | some w =>
      rw [show (mutOrg o).database =
        o.database.map (fun v => .str (pyStr v)) from rfl, hdb] at hv
      simp only [Option.map_some'] at hv
      exact ⟨pyStr w, (Option.some.inj hv).symm⟩
  · intro v hv
    cases hdb : o.node_config with
    | none =>
      rw [show (mutOrg o).node_config =
        o.node_config.map (fun v => .str (pyStr v)) from rfl, hdb] at hv
      cases hv
    | some w =>
      rw [show (mutOrg o).node_config =
        o.node_config.map (fun v => .str (pyStr v)) from rfl, hdb] at hv
      simp only [Option.map_some'] at hv
      exact ⟨pyStr w, (Option.some.inj hv).symm⟩

/-- C10: saving mutates the live organization records — every
`database`/`node_config` value is replaced in place by its string form
(so those fields are plain strings afterwards), while the live server
record is left untouched (its fields stay path objects). -/
theorem write_demo_infra_mutates_live_orgs (st : State) :
    (write_demo_infra st).2.server = st.server ∧
    (write_demo_infra st).2.orgs.length = st.orgs.length ∧
    ∀ i, i < st.orgs.length →
      ((write_demo_infra st).2.orgs.getD i default).name =
          (st.orgs.getD i default).name ∧
      ((write_demo_infra st).2.orgs.getD i default).api_key =
          (st.orgs.getD i default).api_key ∧
      ((write_demo_infra st).2.orgs.getD i default).username =
          (st.orgs.getD i default).username ∧
      ((write_demo_infra st).2.orgs.getD i default).password =
          (st.orgs.getD i default).password ∧
      ((write_demo_infra st).2.orgs.getD i default).database =
          (st.orgs.getD i default).database.map (fun v => .str (pyStr v)) ∧
      ((write_demo_infra st).2.orgs.getD i default).node_config =
          (st.orgs.getD i default).node_config.map
            (fun v => .str (pyStr v)) ∧
      (∀ v, ((write_demo_infra st).2.orgs.getD i default).database =
          some v → ∃ s, v = PVal.str s) ∧
      (∀ v, ((write_demo_infra st).2.orgs.getD i default).node_config =
          some v → ∃ s, v = PVal.str s) := by
  refine ⟨rfl, ?_, ?_⟩
  · show (st.orgs.map mutOrg).length = st.orgs.length
    simp
  · intro i hi
    have hD : (write_demo_infra st).2.orgs.getD i default =
        mutOrg (st.orgs.getD i default) :=
      getD_map mutOrg st.orgs i default default hi
    rw [hD]
    exact mutOrg_fields (st.orgs.getD i default)

/-- Witness for the save-mutation theorem at a concrete state. -/
theorem write_demo_infra_mutates_live_orgs_witness :
    ((write_demo_infra
        { server := { config_loc := some (.path (parsePath "cfg.yaml")) },
          orgs :=
            [{ name := "a",
               database := some (.path (parsePath "data/a.csv")) }] }).2.orgs.getD
        0 default).database =
      (([{ name := "a",
           database := some (.path (parsePath "data/a.csv")) }] :
          List Org).getD 0 default).database.map
        (fun v => .str (pyStr v)) := by
  have h := write_demo_infra_mutates_live_orgs
    { server := { config_loc := some (.path (parsePath "cfg.yaml")) },
      orgs :=
        [{ name := "a",
           database := some (.path (parsePath "data/a.csv")) }] }
  exact (h.2.2 0 (by decide)).2.2.2.2.1

/-- `checkPath` satisfies the downgrade contract with respect to any
warning list that contains its own warnings. -/
theorem checkPath_downgraded (fs : PyPath → Bool) (v : Option String)
    (w : List String) (hw : ∀ m ∈ (checkPath fs v).2, m ∈ w) :
    Downgraded fs v (checkPath fs v).1 w := by
  cases v with
  | none =>
    exact ⟨fun _ => rfl, fun s hs => by cases hs⟩
  | some s =>
    constructor
    · intro h
      cases h
    intro s0 hs0
    cases hs0
    constructor
    · intro ht
      show (checkPath fs (some s)).1 = some (.path (parsePath s))
      simp [checkPath, ht]
    · intro hf
      constructor
      · show (checkPath fs (some s)).1 = none
        simp [checkPath, hf]
      · apply hw
        show warnMsg (parsePath s) ∈ (checkPath fs (some s)).2
        simp [checkPath, hf]

/-- C6: loading a persisted state is total and downgrades exactly the
path-valued fields whose targets are missing — each such field is
removed with a warning recorded, fields whose paths exist are kept (as
parsed paths), and all non-path fields and the record count are
preserved. -/
theorem load_downgrades_missing_paths (fs : PyPath → Bool) (c : StateS) :
    (load fs c).1.orgs.length = c.orgs.length ∧
    Downgraded fs c.server.config_loc (load fs c).1.server.config_loc
      (load fs c).2 ∧
    Downgraded fs c.server.yaml_loc (load fs c).1.server.yaml_loc
      (load fs c).2 ∧
    ∀ i, i < c.orgs.length →
      ((load fs c).1.orgs.getD i default).name =
          (c.orgs.getD i default).name ∧
      ((load fs c).1.orgs.getD i default).api_key =
          (c.orgs.getD i default).api_key ∧
      ((load fs c).1.orgs.getD i default).username =
          (c.orgs.getD i default).username ∧
      ((load fs c).1.orgs.getD i default).password =
          (c.orgs.getD i default).password ∧
      Downgraded fs (c.orgs.getD i default).node_config
        ((load fs c).1.orgs.getD i default).node_config (load fs c).2 ∧
      Downgraded fs (c.orgs.getD i default).database
        ((load fs c).1.orgs.getD i default).database (load fs c).2 := by
  refine ⟨?_, ?_, ?_, ?_⟩
  · show (c.orgs.map (loadOrg fs)).length = c.orgs.length
    simp
  · apply checkPath_downgraded
    intro m hm
    exact List.mem_append_left _ (List.mem_append_left _
      (List.mem_append_left _ hm))
  · apply checkPath_downgraded
    intro m hm
    exact List.mem_append_left _ (List.mem_append_left _
      (List.mem_append_right _ hm))
  · intro i hi
    have hD : (load fs c).1.orgs.getD i default =
        loadOrg fs (c.orgs.getD i default) :=
      getD_map (loadOrg fs) c.orgs i default default hi
    rw [hD]
    have hmem : c.orgs.getD i default ∈ c.orgs := getD_mem c.orgs i default hi
    refine ⟨rfl, rfl, rfl, rfl, ?_, ?_⟩
    · apply checkPath_downgraded
      intro m hm
      apply List.mem_append_left
      apply List.mem_append_right
      rw [List.mem_flatten]
      exact ⟨(checkPath fs (c.orgs.getD i default).node_config).2,
        List.mem_map_of_mem _ hmem, hm⟩
    · apply checkPath_downgraded
      intro m hm
      apply List.mem_append_right
      rw [List.mem_flatten]
      exact ⟨(checkPath fs (c.orgs.getD i default).database).2,
        List.mem_map_of_mem _ hmem, hm⟩

/-- Witness for the downgrade theorem: a state referencing a missing
`config_loc` loads with the field absent and the warning recorded. -/
theorem load_downgrades_missing_paths_witness :
    (load (fun _ => false)
        { server := { config_loc := some "gone.yaml" },
          orgs := [] }).1.server.config_loc = none ∧
      warnMsg (parsePath "gone.yaml") ∈
        (load (fun _ => false)
          { server := { config_loc := some "gone.yaml" },
            orgs := [] }).2 := by
  have h := (load_downgrades_missing_paths (fun _ => false)
    { server := { config_loc := some "gone.yaml" }, orgs := [] }).2.1
  exact (h.2 "gone.yaml" rfl).2 rfl

/-- One optional path field survives a save / validate / re-save cycle
when its value re-parses stably and its path exists. -/
theorem field_round (fs : PyPath → Bool) (ov : Option PVal)
    (hn : OptNorm ov) (he : OptExist fs ov) :
    ((checkPath fs (ov.map pyStr)).1).map pyStr = ov.map pyStr := by
  cases ov with
  | none => rfl
  | some v =>
    have ht : fs (parsePath (pyStr v)) = true := he
    show ((checkPath fs (some (pyStr v))).1).map pyStr = some (pyStr v)
    simp only [checkPath, ht, if_true]
    show some (pathToString (parsePath (pyStr v))) = some (pyStr v)
    exact congrArg some hn

/-- One organization record survives a save / validate / re-save cycle
up to its serialized view. -/
theorem org_round (fs : PyPath → Bool) (o : Org)
    (hn : OptNorm o.database ∧ OptNorm o.node_config)
    (he : OptExist fs o.database ∧ OptExist fs o.node_config) :
    saveOrg (loadOrg fs (saveOrg o)) = saveOrg o := by
  show ({ name := o.name, api_key := o.api_key, username := o.username,
          password := o.password,
          node_config := ((checkPath fs (o.node_config.map pyStr)).1).map pyStr,
          database := ((checkPath fs (o.database.map pyStr)).1).map pyStr } :
        OrgS) = saveOrg o
  rw [field_round fs o.node_config hn.2 he.2,
    field_round fs o.database hn.1 he.1]
  rfl

/-- Saving an already-saved (string-valued) record again serializes to
the same bytes: `str` is the identity on the stringified fields. -/
theorem saveOrg_mutOrg (o : Org) : saveOrg (mutOrg o) = saveOrg o := by
  show ({ name := o.name, api_key := o.api_key, username := o.username,
          password := o.password,
          node_config :=
            (o.node_config.map fun v => PVal.str (pyStr v)).map pyStr,
          database :=
            (o.database.map fun v => PVal.str (pyStr v)).map pyStr } :
        OrgS) = saveOrg o
  have h1 : (o.node_config.map fun v => PVal.str (pyStr v)).map pyStr =
      o.node_config.map pyStr := by
    cases o.node_config <;> rfl
  have h2 : (o.database.map fun v => PVal.str (pyStr v)).map pyStr =
      o.database.map pyStr := by
    cases o.database <;> rfl
  rw [h1, h2]
  rfl

/-- C7: the stable round-trip — when every path field of `st` re-parses
stably and still exists on disk, `save(load(save(st)))` serializes to
exactly `save(st)`; and saving twice without intervening mutation (the
second save acting on the post-save in-memory state) always produces the
identical serialized document. -/
theorem save_load_save_stable (fs : PyPath → Bool) (st : State)
    (hN : StateNorm st) (hE : AllExist fs st) :
    (write_demo_infra (load fs (write_demo_infra st).1).1).1 =
      (write_demo_infra st).1 ∧
    ∀ st2 : State,
      (write_demo_infra (write_demo_infra st2).2).1 =
        (write_demo_infra st2).1 := by
  constructor
  · have hc : ((checkPath fs (st.server.config_loc.map pyStr)).1).map pyStr =
        st.server.config_loc.map pyStr :=
      field_round fs st.server.config_loc hN.1 hE.1
    have hy : ((checkPath fs (st.server.yaml_loc.map pyStr)).1).map pyStr =
        st.server.yaml_loc.map pyStr :=
      field_round fs st.server.yaml_loc hN.2.1 hE.2.1
    have horgs : st.orgs.map (fun o => saveOrg (loadOrg fs (saveOrg o))) =
        st.orgs.map saveOrg := by
      apply List.map_congr_left
      intro o ho
      exact org_round fs o (hN.2.2 o ho) (hE.2.2 o ho)
    simp only [write_demo_infra, load, List.map_map, Function.comp_def]
    rw [hc, hy, horgs]
  · intro st2
    have horgs : st2.orgs.map (fun o => saveOrg (mutOrg o)) =
        st2.orgs.map saveOrg := by
      apply List.map_congr_left
      intro o _
      exact saveOrg_mutOrg o
    simp only [write_demo_infra, List.map_map, Function.comp_def]
    rw [horgs]

/-- Witness for the round-trip theorem at a concrete state whose paths
all exist. -/
theorem save_load_save_stable_witness :
    (write_demo_infra
        (load (fun _ => true)
          (write_demo_infra
            { server :=
                { config_loc :=
                    some (.path (parsePath "v6_files/server/config.yaml")) },
              orgs :=
                [{ name := "alice",
                   database :=
                     some (.path (parsePath "databases/alice.csv")) }] }).1).1).1 =
      (write_demo_infra
        { server :=
            { config_loc :=
                some (.path (parsePath "v6_files/server/config.yaml")) },
          orgs :=
            [{ name := "alice",
               database :=
                 some (.path (parsePath "databases/alice.csv")) }] }).1 :=
  (save_load_save_stable (fun _ => true)
    { server :=
        { config_loc :=
            some (.path (parsePath "v6_files/server/config.yaml")) },
      orgs :=
        [{ name := "alice",
           database := some (.path (parsePath "databases/alice.csv")) }] }
    (by decide) (by decide)).1

end SetupDemo
